import Mathlib

/-!
Shallow embedding of the HLS transcoding pipeline worker
(`src/worker/redis_consumer.ts`) together with the submission-time status
write (`src/app.ts`) and the queue-level event observer.

Modelling conventions:
* machine integers are `Nat` (the probed dimensions are small positive
  JSON numbers, no overflow is reachable);
* the Redis hash `video:<id>` is a `StatusRecord`; a `redis.hset` call is
  an `HSet` value: a field-level upsert carrying only the fields it sets;
* every effectful pipeline step whose implementation lives outside this
  file (ffprobe, the two worker threads, Cloudinary, the filesystem) is
  an outcome recorded in an `Env`; `processJob` is then a total function
  from the job data and the environment to the list of observable events
  it performs, in program order.
-/

namespace Hls

/-- One target resolution rung, as built in `processJob` lines 157-181:
output subdirectory, target height, target width. -/
structure Rung where
  dir : String
  height : Nat
  width : Nat
  deriving DecidableEq, Repr

/-- The full canonical ladder (ascending): the six tiers the code knows,
with the fixed widths 640/854/1280/1920/2880/4320. -/
def allRungs (uploadDir : String) : List Rung :=
  [⟨uploadDir ++ "/360p", 360, 640⟩,
   ⟨uploadDir ++ "/480p", 480, 854⟩,
   ⟨uploadDir ++ "/720p", 720, 1280⟩,
   ⟨uploadDir ++ "/1080p", 1080, 1920⟩,
   ⟨uploadDir ++ "/1620p", 1620, 2880⟩,
   ⟨uploadDir ++ "/2430p", 2430, 4320⟩]

/-- The ladder builder: the `uploadSubDir` array built in `processJob`
(lines 157-181).  The 360p rung is unconditional; each higher tier is
included when the probed height reaches its threshold. -/
def uploadSubDir (uploadDir : String) (height : Nat) : List Rung :=
  [⟨uploadDir ++ "/360p", 360, 640⟩]
  ++ (if 480 ≤ height then [⟨uploadDir ++ "/480p", 480, 854⟩] else [])
  ++ (if 720 ≤ height then [⟨uploadDir ++ "/720p", 720, 1280⟩] else [])
  ++ (if 1080 ≤ height then [⟨uploadDir ++ "/1080p", 1080, 1920⟩] else [])
  ++ (if 1620 ≤ height then [⟨uploadDir ++ "/1620p", 1620, 2880⟩] else [])
  ++ (if 2430 ≤ height then [⟨uploadDir ++ "/2430p", 2430, 4320⟩] else [])

/-- Synthetic bandwidth of the rung at 0-based index `i`:
`(i + 1) * 250000` (line 71 of the source). -/
def bandwidth (i : Nat) : Nat := (i + 1) * 250000

/-- One `#EXT-X-STREAM-INF` entry of the master playlist: the template
literal in `generateMasterPlaylist` for element `r` at index `i`. -/
def streamInf (r : Rung) (i : Nat) : String :=
  "#EXT-X-STREAM-INF:BANDWIDTH=" ++ toString (bandwidth i)
    ++ ",RESOLUTION=" ++ toString r.width ++ "x" ++ toString r.height
    ++ "\n" ++ toString r.height ++ "p/index.m3u8"

/-- The mapped entry list of `generateMasterPlaylist`: one entry per
rung, indexed in order. -/
def masterEntries (l : List Rung) : List String :=
  l.enum.map fun p => streamInf p.2 p.1

/-- `generateMasterPlaylist` (lines 64-76): `#EXTM3U` followed by one
stream-inf entry per rung, joined with newlines. -/
def generateMasterPlaylist (l : List Rung) : String :=
  String.intercalate "\n" ("#EXTM3U" :: masterEntries l)

/-- The per-job Status Record stored at key `video:<videoId>`: the hash
fields the system reads and writes.  `masterUrl`/`urls` are absent until
some write sets them, hence `Option`. -/
structure StatusRecord where
  status : String
  progress : String
  error : String
  masterUrl : Option String
  urls : Option String
  createdAt : String
  deriving DecidableEq, Repr

/-- One `redis.hset` call: a field-level upsert carrying exactly the
fields passed to it.  Fields not passed are untouched. -/
structure HSet where
  status : Option String := none
  progress : Option String := none
  error : Option String := none
  masterUrl : Option String := none
  urls : Option String := none
  createdAt : Option String := none
  deriving DecidableEq, Repr

/-- Semantics of `redis.hset`: overwrite exactly the fields the call
carries, keep the rest. -/
def applyHSet (r : StatusRecord) (w : HSet) : StatusRecord where
  status := w.status.getD r.status
  progress := w.progress.getD r.progress
  error := w.error.getD r.error
  masterUrl := (w.masterUrl.map some).getD r.masterUrl
  urls := (w.urls.map some).getD r.urls
  createdAt := w.createdAt.getD r.createdAt

/-- The fields of `job.data` that `processJob` destructures. -/
structure JobData where
  videoId : String
  inputFilePath : String
  uploadDir : String
  inputDir : String
  deriving DecidableEq, Repr

/-- One entry of the upload worker's result: `{ type, url }`. -/
structure RungUrl where
  type : Nat
  url : String
  deriving DecidableEq, Repr

/-- JSON serialisation of one `{ type, url }` entry, as
`JSON.stringify` renders it. -/
def rungUrlJson (u : RungUrl) : String :=
  "\x7b\"type\":" ++ toString u.type ++ ",\"url\":\"" ++ u.url ++ "\"\x7d"

/-- `JSON.stringify(urls)` for the whole upload-result array. -/
def urlsJson (us : List RungUrl) : String :=
  "[" ++ String.intercalate "," (us.map rungUrlJson) ++ "]"

/-- Outcomes of the effectful steps `processJob` awaits, everything whose
implementation is outside `redis_consumer.ts`: ffprobe, `fs.mkdir`, the
two worker threads, `fs.writeFile`, the Cloudinary upload, and the three
`fs.rm` calls of the `finally` block (`true` = removal succeeded). -/
structure Env where
  probe : Except String (Nat × Nat)
  mkdirRes : Except String Unit
  ffmpegRes : Except String Unit
  uploadRes : Except String (List RungUrl)
  writeMasterRes : Except String Unit
  masterUploadRes : Except String String
  rmUploadOk : Bool
  rmInputOk : Bool
  rmTmpOk : Bool
  deriving Repr

/-- Observable events of one `processJob` run, in program order. -/
inductive Event where
  | hset (key : String) (w : HSet)
  | mkdirRec (dir : String)
  | writeFile (path : String) (content : String)
  | rmRec (dir : String)
  | log (msg : String)
  deriving DecidableEq, Repr

/-- The hset payload of the `catch` block (lines 222-225): only
`status` and `error` are written. -/
def errorWrite (msg : String) : HSet :=
  { status := some "error", error := some msg }

/-- A milestone hset carrying a status string and a progress string. -/
def progressWrite (s p : String) : HSet :=
  { status := some s, progress := some p }

/-- The aspect-ratio rejection message (line 153). -/
def aspectMsg : String := "Aspect ratio should be landscape"

/-- The minimum-resolution rejection message (line 155). -/
def tooLowMsg (width height : Nat) : String :=
  "Video resolution too low: " ++ toString width ++ "x" ++ toString height

/-- The error message, if any, that the `catch` block of `processJob`
receives: the first failing step in program order.  `none` means the
`try` block ran to completion. -/
def pipelineError (env : Env) : Option String :=
  match env.probe with
  | .error e => some e
  | .ok (width, height) =>
    if width < height then some aspectMsg
    else if min height width < 360 then some (tooLowMsg width height)
    else match env.mkdirRes with
      | .error e => some e
      | .ok _ =>
        match env.ffmpegRes with
        | .error e => some e
        | .ok _ =>
          match env.uploadRes with
          | .error e => some e
          | .ok _ =>
            match env.writeMasterRes with
            | .error e => some e
            | .ok _ =>
              match env.masterUploadRes with
              | .error e => some e
              | .ok _ => none

/-- Events of the `try`/`catch` part of `processJob` (lines 146-225):
each milestone status write, the rung-directory creations, the master
playlist file write, and either the final `completed` write or the
`catch` block's `error` write. -/
def tryEvents (job : JobData) (env : Env) : List Event :=
  let k := "video:" ++ job.videoId
  Event.hset k (progressWrite "checking video resolutions" "5") ::
  match env.probe with
  | .error e => [Event.hset k (errorWrite e)]
  | .ok (width, height) =>
    if width < height then [Event.hset k (errorWrite aspectMsg)]
    else if min height width < 360 then
      [Event.hset k (errorWrite (tooLowMsg width height))]
    else
      let rungs := uploadSubDir job.uploadDir height
      rungs.map (fun r => Event.mkdirRec r.dir) ++
      match env.mkdirRes with
      | .error e => [Event.hset k (errorWrite e)]
      | .ok _ =>
        Event.hset k (progressWrite "Processing & Uploading" "20") ::
        match env.ffmpegRes with
        | .error e => [Event.hset k (errorWrite e)]
        | .ok _ =>
          match env.uploadRes with
          | .error e => [Event.hset k (errorWrite e)]
          | .ok urls =>
            Event.hset k (progressWrite "Generating master file" "20") ::
            Event.writeFile (job.uploadDir ++ "/index.m3u8")
              (generateMasterPlaylist rungs).trim ::
            match env.writeMasterRes with
            | .error e => [Event.hset k (errorWrite e)]
            | .ok _ =>
              Event.hset k (progressWrite "Uploading master file" "20") ::
              match env.masterUploadRes with
              | .error e => [Event.hset k (errorWrite e)]
              | .ok masterUrl =>
                [Event.hset k
                  { status := some "completed", progress := some "100",
                    masterUrl := some masterUrl,
                    urls := some (urlsJson urls) }]

/-- Events of the `finally` block (lines 226-237): all three removals
are attempted unconditionally; a failing removal is logged
(`.catch(console.error)`) and the block continues. -/
def cleanupEvents (job : JobData) (env : Env) : List Event :=
  (Event.rmRec job.uploadDir ::
    (if env.rmUploadOk then [] else [Event.log job.uploadDir]))
  ++ (Event.rmRec job.inputDir ::
    (if env.rmInputOk then [] else [Event.log job.inputDir]))
  ++ (Event.rmRec ("/tmp/" ++ job.videoId) ::
    (if env.rmTmpOk then [] else [Event.log ("/tmp/" ++ job.videoId)]))

/-- The whole of `processJob`: a total function — every failure of a
pipeline step is consumed by the `catch` block and every failure of a
removal by its `.catch`, so the promise always resolves. -/
def processJob (job : JobData) (env : Env) : List Event :=
  tryEvents job env ++ cleanupEvents job env

/-- The hset payload of an event, if it is one. -/
def eventHSet : Event → Option HSet
  | .hset _ w => some w
  | _ => none

/-- The hset payloads of an event list, in order. -/
def hsetsOf (es : List Event) : List HSet := es.filterMap eventHSet

/-- The last hset payload of an event list. -/
def lastHSet (es : List Event) : Option HSet := (hsetsOf es).getLast?

/-- The submission-time write of `app.ts` (lines 191-196), performed
before the job is enqueued. -/
def submissionWrite (createdAt : String) : HSet :=
  { status := some "queued", progress := some "0", error := some "",
    createdAt := some createdAt }

/-- The write of the queue-level `completed` observer
(`queueEvents.on("completed")`, lines 261-271). -/
def observerCompletedWrite : HSet :=
  { status := some "completed", progress := some "100" }

/-- The write of the queue-level `failed` observer
(`queueEvents.on("failed")`, lines 250-260). -/
def observerFailedWrite (failedReason : String) : HSet :=
  { status := some "error", error := some failedReason }

/-- All hset payloads applied to `video:<videoId>` over a job's
lifetime, in order: the submission write, then `processJob`'s writes,
then — because `processJob` always resolves, so BullMQ reports the job
as completed — the observer's `completed` write whenever
`queue.getJob` still finds the job (`obs` = it does). -/
def lifecycleWrites (job : JobData) (env : Env) (createdAt : String)
    (obs : Bool) : List HSet :=
  submissionWrite createdAt :: hsetsOf (processJob job env)
  ++ (if obs then [observerCompletedWrite] else [])

/-- The status values the record passes through: the `status` field of
each write that carries one. -/
def statusSeq (ws : List HSet) : List String := ws.filterMap (·.status)

/-- Position of a status string in the ordered state machine;
`error` and unknown strings rank above every milestone. -/
def statusRank : String → Nat
  | "queued" => 0
  | "checking video resolutions" => 1
  | "Processing & Uploading" => 2
  | "Generating master file" => 3
  | "Uploading master file" => 4
  | "completed" => 5
  | _ => 6

/-- `error` is absorbing in a status sequence: everything after an
`error` entry is again `error`. -/
def errorAbsorbing : List String → Bool
  | [] => true
  | s :: rest =>
    if s = "error" then rest.all (· = "error") else errorAbsorbing rest

/-- The ordered status list of spec §4.6, in the code's spellings. -/
def orderedStatuses : List String :=
  ["queued", "checking video resolutions", "Processing & Uploading",
   "Generating master file", "Uploading master file", "completed"]

/-- The writes performed by this repository's own code path for one job
(submission write, then the Job Runner's writes), without the
queue-level observer. -/
def runnerWrites (job : JobData) (env : Env) (createdAt : String) :
    List HSet :=
  submissionWrite createdAt :: hsetsOf (processJob job env)

/-- The directories passed to `fs.rm` during a run, in order. -/
def rmTargets (es : List Event) : List String :=
  es.filterMap fun e => match e with | .rmRec d => some d | _ => none

/-- A sample job descriptor used for concrete evaluations. -/
def cexJob : JobData := ⟨"vid", "f.mp4", "/data/out", "/data/in"⟩

/-- An environment in which every pipeline step succeeds,
probing 1920x1080. -/
def envAllOk : Env :=
  ⟨.ok (1920, 1080), .ok (), .ok (), .ok [⟨360, "u"⟩], .ok (), .ok "mu",
   true, true, true⟩

/-- An environment probing a 600x800 portrait input; later steps would
succeed but are never reached. -/
def envPortrait : Env :=
  ⟨.ok (600, 800), .ok (), .ok (), .ok [], .ok (), .ok "mu",
   true, true, true⟩

/-- An environment probing a 300x400 input: both portrait and below the
360-pixel minimum. -/
def envLowPortrait : Env :=
  ⟨.ok (300, 400), .ok (), .ok (), .ok [], .ok (), .ok "mu",
   true, true, true⟩

/-- An environment probing a 320x240 landscape input below the
360-pixel minimum. -/
def envLowLandscape : Env :=
  ⟨.ok (320, 240), .ok (), .ok (), .ok [], .ok (), .ok "mu",
   true, true, true⟩

/-- An environment in which ffprobe itself fails, and in which all
three cleanup removals fail. -/
def envProbeFail : Env :=
  ⟨.error "boom", .ok (), .ok (), .ok [], .ok (), .ok "mu",
   false, false, false⟩

/-- A two-rung ladder used to evaluate the playlist generator. -/
def demoLadder : List Rung := uploadSubDir "o" 480

/-- A mid-flight Status Record used to evaluate the effect of the
error-state write. -/
def sampleRecord : StatusRecord :=
  ⟨"Processing & Uploading", "20", "", none, none, "t"⟩

/-- A fixed submission timestamp used in concrete evaluations. -/
def tstamp : String := "t"

end Hls

namespace Hls

@[simp]
theorem hsetsOf_nil : hsetsOf [] = [] := rfl

@[simp]
theorem hsetsOf_append (a b : List Event) :
    hsetsOf (a ++ b) = hsetsOf a ++ hsetsOf b :=
  List.filterMap_append a b eventHSet

@[simp]
theorem hsetsOf_cons_hset (k : String) (w : HSet) (es : List Event) :
    hsetsOf (Event.hset k w :: es) = w :: hsetsOf es := rfl

@[simp]
theorem hsetsOf_cons_mkdir (d : String) (es : List Event) :
    hsetsOf (Event.mkdirRec d :: es) = hsetsOf es := rfl

@[simp]
theorem hsetsOf_cons_writeFile (p c : String) (es : List Event) :
    hsetsOf (Event.writeFile p c :: es) = hsetsOf es := rfl

@[simp]
theorem hsetsOf_cons_rm (d : String) (es : List Event) :
    hsetsOf (Event.rmRec d :: es) = hsetsOf es := rfl

@[simp]
theorem hsetsOf_cons_log (m : String) (es : List Event) :
    hsetsOf (Event.log m :: es) = hsetsOf es := rfl

@[simp]
theorem hsetsOf_mkdirs (rs : List Rung) :
    hsetsOf (rs.map fun r => Event.mkdirRec r.dir) = [] := by
  induction rs with
  | nil => rfl
  | cons r rs ih => simpa using ih

@[simp]
theorem hsetsOf_cleanup (job : JobData) (env : Env) :
    hsetsOf (cleanupEvents job env) = [] := by
  rcases env with ⟨p, mk, ff, up, wm, mu, r1, r2, r3⟩
  cases r1 <;> cases r2 <;> cases r3 <;> rfl

/-- Classification of the Job Runner's Redis writes: `processJob`
performs the milestone writes in order, ending either in the `catch`
block's `error` write after the first failing step or in the final
`completed` write. -/
theorem runnerHSets_eq (job : JobData) (env : Env) :
    hsetsOf (processJob job env) =
      progressWrite "checking video resolutions" "5" ::
      match env.probe with
      | .error e => [errorWrite e]
      | .ok (width, height) =>
        if width < height then [errorWrite aspectMsg]
        else if min height width < 360 then [errorWrite (tooLowMsg width height)]
        else match env.mkdirRes with
        | .error e => [errorWrite e]
        | .ok _ => progressWrite "Processing & Uploading" "20" ::
          match env.ffmpegRes with
          | .error e => [errorWrite e]
          | .ok _ => match env.uploadRes with
            | .error e => [errorWrite e]
            | .ok urls => progressWrite "Generating master file" "20" ::
              match env.writeMasterRes with
              | .error e => [errorWrite e]
              | .ok _ => progressWrite "Uploading master file" "20" ::
                match env.masterUploadRes with
                | .error e => [errorWrite e]
                | .ok mu =>
                  [{ status := some "completed", progress := some "100",
                     masterUrl := some mu, urls := some (urlsJson urls) }] := by
  rcases env with ⟨probe, mk, ff, up, wm, mu, r1, r2, r3⟩
  rcases probe with e | ⟨w, h⟩
  · simp [processJob, tryEvents]
  · by_cases h1 : w < h
    · simp [processJob, tryEvents, h1]
    · by_cases h2 : min h w < 360
      · simp [processJob, tryEvents, h1, h2]
      · rcases mk with e | ⟨⟩
        · simp [processJob, tryEvents, h1, h2]
        · rcases ff with e | ⟨⟩
          · simp [processJob, tryEvents, h1, h2]
          · rcases up with e | urls
            · simp [processJob, tryEvents, h1, h2]
            · rcases wm with e | ⟨⟩
              · simp [processJob, tryEvents, h1, h2]
              · rcases mu with e | u <;> simp [processJob, tryEvents, h1, h2]

end Hls

namespace Hls

theorem lifecycleWrites_eq (job : JobData) (env : Env) (c : String)
    (obs : Bool) :
    lifecycleWrites job env c obs
      = runnerWrites job env c
        ++ (if obs then [observerCompletedWrite] else []) := by
  simp [lifecycleWrites, runnerWrites]

theorem statusSeq_append (a b : List HSet) :
    statusSeq (a ++ b) = statusSeq a ++ statusSeq b :=
  List.filterMap_append a b _

/-- The terminal write of a failed run: whatever step fails first, the
`catch` block's write is the last Redis write of the run, and it
carries that step's message. -/
theorem lastHSet_of_error (job : JobData) (env : Env) (msg : String)
    (h : pipelineError env = some msg) :
    lastHSet (processJob job env) = some (errorWrite msg) := by
  have heq := runnerHSets_eq job env
  unfold lastHSet
  rw [heq]
  rcases env with ⟨probe, mk, ff, up, wm, mu, r1, r2, r3⟩
  rcases probe with e | ⟨w, hh⟩
  · simp only [pipelineError, Option.some.injEq] at h
    subst h
    simp
  · by_cases h1 : w < hh
    · simp only [pipelineError, h1, if_pos, Option.some.injEq] at h
      subst h
      simp [h1]
    · by_cases h2 : min hh w < 360
      · simp only [pipelineError, h1, h2, if_neg, if_pos, Option.some.injEq,
          not_false_iff] at h
        subst h
        simp [h1, h2]
      · rcases mk with e | ⟨⟩
        · simp only [pipelineError, h1, h2, Option.some.injEq, if_neg,
            not_false_iff] at h
          subst h
          simp [h1, h2]
        · rcases ff with e | ⟨⟩
          · simp only [pipelineError, h1, h2, Option.some.injEq, if_neg,
              not_false_iff] at h
            subst h
            simp [h1, h2]
          · rcases up with e | urls
            · simp only [pipelineError, h1, h2, Option.some.injEq, if_neg,
                not_false_iff] at h
              subst h
              simp [h1, h2]
            · rcases wm with e | ⟨⟩
              · simp only [pipelineError, h1, h2, Option.some.injEq, if_neg,
                  not_false_iff] at h
                subst h
                simp [h1, h2]
              · rcases mu with e | u
                · simp only [pipelineError, h1, h2, Option.some.injEq, if_neg,
                    not_false_iff] at h
                  subst h
                  simp [h1, h2]
                · simp [pipelineError, h1, h2] at h

/-- The five possible status sequences the repository's own writes
produce, depending on where (if anywhere) the pipeline fails. -/
theorem runnerStatusSeq_cases (job : JobData) (env : Env) (c : String) :
    statusSeq (runnerWrites job env c) ∈
      [["queued", "checking video resolutions", "error"],
       ["queued", "checking video resolutions", "Processing & Uploading",
        "error"],
       ["queued", "checking video resolutions", "Processing & Uploading",
        "Generating master file", "error"],
       ["queued", "checking video resolutions", "Processing & Uploading",
        "Generating master file", "Uploading master file", "error"],
       orderedStatuses] := by
  have heq := runnerHSets_eq job env
  rcases env with ⟨probe, mk, ff, up, wm, mu, r1, r2, r3⟩
  rcases probe with e | ⟨w, h⟩
  · simp [runnerWrites, heq, statusSeq, submissionWrite, progressWrite,
      errorWrite, orderedStatuses]
  · by_cases h1 : w < h
    · simp [runnerWrites, heq, statusSeq, h1, submissionWrite, progressWrite,
        errorWrite, orderedStatuses]
    · by_cases h2 : min h w < 360
      · simp [runnerWrites, heq, statusSeq, h1, h2, submissionWrite,
          progressWrite, errorWrite, orderedStatuses]
      · rcases mk with e | ⟨⟩
        · simp [runnerWrites, heq, statusSeq, h1, h2, submissionWrite,
            progressWrite, errorWrite, orderedStatuses]
        · rcases ff with e | ⟨⟩
          · simp [runnerWrites, heq, statusSeq, h1, h2, submissionWrite,
              progressWrite, errorWrite, orderedStatuses]
          · rcases up with e | urls
            · simp [runnerWrites, heq, statusSeq, h1, h2, submissionWrite,
                progressWrite, errorWrite, orderedStatuses]
            · rcases wm with e | ⟨⟩
              · simp [runnerWrites, heq, statusSeq, h1, h2, submissionWrite,
                  progressWrite, errorWrite, orderedStatuses]
              · rcases mu with e | u <;>
                  simp [runnerWrites, heq, statusSeq, h1, h2, submissionWrite,
                    progressWrite, errorWrite, orderedStatuses]

/-- When no step fails, the repository's own writes march through
exactly the ordered status list. -/
theorem runnerStatusSeq_success (job : JobData) (env : Env) (c : String)
    (h : pipelineError env = none) :
    statusSeq (runnerWrites job env c) = orderedStatuses := by
  have heq := runnerHSets_eq job env
  rcases env with ⟨probe, mk, ff, up, wm, mu, r1, r2, r3⟩
  rcases probe with e | ⟨w, hh⟩
  · simp [pipelineError] at h
  · by_cases h1 : w < hh
    · simp [pipelineError, h1] at h
    · by_cases h2 : min hh w < 360
      · simp [pipelineError, h1, h2] at h
      · rcases mk with e | ⟨⟩
        · simp [pipelineError, h1, h2] at h
        · rcases ff with e | ⟨⟩
          · simp [pipelineError, h1, h2] at h
          · rcases up with e | urls
            · simp [pipelineError, h1, h2] at h
            · rcases wm with e | ⟨⟩
              · simp [pipelineError, h1, h2] at h
              · rcases mu with e | u
                · simp [pipelineError, h1, h2] at h
                · simp [runnerWrites, heq, statusSeq, h1, h2, submissionWrite,
                    progressWrite, orderedStatuses]

@[simp]
theorem rmTargets_nil : rmTargets [] = [] := rfl

@[simp]
theorem rmTargets_cons_hset (k : String) (w : HSet) (es : List Event) :
    rmTargets (Event.hset k w :: es) = rmTargets es := rfl

@[simp]
theorem rmTargets_cons_mkdir (d : String) (es : List Event) :
    rmTargets (Event.mkdirRec d :: es) = rmTargets es := rfl

@[simp]
theorem rmTargets_cons_writeFile (p c : String) (es : List Event) :
    rmTargets (Event.writeFile p c :: es) = rmTargets es := rfl

@[simp]
theorem rmTargets_cons_rm (d : String) (es : List Event) :
    rmTargets (Event.rmRec d :: es) = d :: rmTargets es := rfl

@[simp]
theorem rmTargets_cons_log (m : String) (es : List Event) :
    rmTargets (Event.log m :: es) = rmTargets es := rfl

@[simp]
theorem rmTargets_append (a b : List Event) :
    rmTargets (a ++ b) = rmTargets a ++ rmTargets b :=
  List.filterMap_append a b _

@[simp]
theorem rmTargets_mkdirs (rs : List Rung) :
    rmTargets (rs.map fun r => Event.mkdirRec r.dir) = [] := by
  induction rs with
  | nil => rfl
  | cons r rs ih => simpa using ih

/-- No `fs.rm` call happens inside the `try` block. -/
theorem rmTargets_try (job : JobData) (env : Env) :
    rmTargets (tryEvents job env) = [] := by
  rcases env with ⟨probe, mk, ff, up, wm, mu, r1, r2, r3⟩
  rcases probe with e | ⟨w, h⟩
  · simp [tryEvents]
  · by_cases h1 : w < h
    · simp [tryEvents, h1]
    · by_cases h2 : min h w < 360
      · simp [tryEvents, h1, h2]
      · rcases mk with e | ⟨⟩
        · simp [tryEvents, h1, h2]
        · rcases ff with e | ⟨⟩
          · simp [tryEvents, h1, h2]
          · rcases up with e | urls
            · simp [tryEvents, h1, h2]
            · rcases wm with e | ⟨⟩
              · simp [tryEvents, h1, h2]
              · rcases mu with e | u <;> simp [tryEvents, h1, h2]

@[simp]
theorem rmTargets_cleanup (job : JobData) (env : Env) :
    rmTargets (cleanupEvents job env)
      = [job.uploadDir, job.inputDir, "/tmp/" ++ job.videoId] := by
  rcases env with ⟨p, mk, ff, up, wm, mu, r1, r2, r3⟩
  cases r1 <;> cases r2 <;> cases r3 <;> rfl

theorem mkdir_not_mem_cleanup (job : JobData) (env : Env) (d : String) :
    Event.mkdirRec d ∉ cleanupEvents job env := by
  rcases env with ⟨p, mk, ff, up, wm, mu, r1, r2, r3⟩
  cases r1 <;> cases r2 <;> cases r3 <;> simp [cleanupEvents]

/-- A portrait probe result makes the run end in the aspect-ratio error
write, with no directory ever created. -/
theorem aspect_rejection (job : JobData) (env : Env) (w h : Nat)
    (hp : env.probe = .ok (w, h)) (hwh : w < h) :
    lastHSet (processJob job env) = some (errorWrite aspectMsg)
    ∧ ∀ d, Event.mkdirRec d ∉ processJob job env := by
  constructor
  · refine lastHSet_of_error job env aspectMsg ?_
    simp [pipelineError, hp, hwh]
  · intro d
    simp only [processJob, List.mem_append, not_or]
    refine ⟨?_, mkdir_not_mem_cleanup job env d⟩
    simp [tryEvents, hp, hwh]

end Hls

namespace Hls

/-- C1 (counterexample): it is not the case that, across all writers of
the record (Job Runner and queue-level observer), the `error` state is
terminal.  Because `processJob` swallows every pipeline error, BullMQ
reports the job as completed, and the queue-level `completed` observer
then overwrites the `error` status with `completed`: for a portrait
input the observed status sequence is
queued, checking, error, completed. -/
theorem C1_error_terminality_counterexample :
    ¬ (∀ (job : JobData) (env : Env) (c : String) (obs : Bool),
        errorAbsorbing (statusSeq (lifecycleWrites job env c obs)) = true) := by
  intro hAll
  exact absurd (hAll cexJob envPortrait tstamp true) (by decide)

/-- C1 (amended): restricted to the writes of the repository's own code
path (submission write plus Job Runner), the `status` field advances
monotonically through the ordered state machine, `error` once entered is
never exited, and for a successful job the sequence of distinct status
values observed — even including the queue observer's redundant final
`completed` write — is exactly the ordered list with no regressions. -/
theorem C1_status_monotonicity (job : JobData) (env : Env) (c : String) :
    errorAbsorbing (statusSeq (runnerWrites job env c)) = true
    ∧ List.Chain' (fun a b => statusRank a ≤ statusRank b)
        (statusSeq (runnerWrites job env c))
    ∧ (pipelineError env = none → ∀ obs : Bool,
        (statusSeq (lifecycleWrites job env c obs)).dedup
          = orderedStatuses) := by
  have hcases := runnerStatusSeq_cases job env c
  simp only [List.mem_cons, List.not_mem_nil, or_false] at hcases
  refine ⟨?_, ?_, ?_⟩
  · rcases hcases with h | h | h | h | h <;> rw [h] <;> decide
  · rcases hcases with h | h | h | h | h <;> rw [h] <;>
      simp [orderedStatuses, List.chain'_cons, statusRank]
  · intro hnone obs
    rw [lifecycleWrites_eq, statusSeq_append,
      runnerStatusSeq_success job env c hnone]
    cases obs <;> decide

/-- C1 (witness): a fully successful run satisfies the amended claim's
hypotheses and yields the exact ordered status list. -/
theorem C1_status_monotonicity_witness :
    pipelineError envAllOk = none
    ∧ errorAbsorbing (statusSeq (runnerWrites cexJob envAllOk tstamp)) = true
    ∧ (statusSeq (lifecycleWrites cexJob envAllOk tstamp true)).dedup
        = orderedStatuses :=
  ⟨by decide, (C1_status_monotonicity cexJob envAllOk tstamp).1,
   (C1_status_monotonicity cexJob envAllOk tstamp).2.2 (by decide) true⟩

/-- C2 (counterexample): it is not the case that every write that sets
status to completed also sets `masterUrl` and `urls`: the queue-level
observer's `completed` write (lines 265-269) sets neither field. -/
theorem C2_completed_fields_counterexample :
    ¬ (∀ (job : JobData) (env : Env) (c : String) (obs : Bool) (w : HSet),
        w ∈ lifecycleWrites job env c obs →
        ((w.status = some "completed" → w.masterUrl.isSome ∧ w.urls.isSome)
         ∧ (w.status ≠ some "completed" →
              w.masterUrl = none ∧ w.urls = none))) := by
  intro hAll
  have h := hAll cexJob envAllOk tstamp true observerCompletedWrite (by decide)
  exact absurd (h.1 (by decide)).1 (by decide)

/-- C2 (amended): restricted to the writes of the repository's own code
path, a write sets `masterUrl`/`urls` exactly when it sets status to
completed; the queue observer's redundant `completed` write sets
neither field, which is where the claim as stated fails. -/
theorem C2_completed_fields (job : JobData) (env : Env) (c : String)
    (w : HSet) (hw : w ∈ runnerWrites job env c) :
    (w.status = some "completed" → w.masterUrl.isSome ∧ w.urls.isSome)
    ∧ (w.status ≠ some "completed" → w.masterUrl = none ∧ w.urls = none) := by
  have heq := runnerHSets_eq job env
  rw [runnerWrites, heq] at hw
  rcases env with ⟨probe, mk, ff, up, wm, mu, r1, r2, r3⟩
  rcases probe with e | ⟨wd, hh⟩
  · simp only [List.mem_cons, List.not_mem_nil, or_false] at hw
    rcases hw with rfl | rfl | rfl <;>
      simp [submissionWrite, progressWrite, errorWrite]
  · by_cases h1 : wd < hh
    · simp only [h1, if_pos, List.mem_cons, List.not_mem_nil, or_false] at hw
      rcases hw with rfl | rfl | rfl <;>
        simp [submissionWrite, progressWrite, errorWrite]
    · by_cases h2 : min hh wd < 360
      · simp only [h1, h2, if_neg, if_pos, not_false_iff, List.mem_cons,
          List.not_mem_nil, or_false] at hw
        rcases hw with rfl | rfl | rfl <;>
          simp [submissionWrite, progressWrite, errorWrite]
      · rcases mk with e | ⟨⟩
        · simp only [h1, h2, if_neg, not_false_iff, List.mem_cons,
            List.not_mem_nil, or_false] at hw
          rcases hw with rfl | rfl | rfl <;>
            simp [submissionWrite, progressWrite, errorWrite]
        · rcases ff with e | ⟨⟩
          · simp only [h1, h2, if_neg, not_false_iff, List.mem_cons,
              List.not_mem_nil, or_false] at hw
            rcases hw with rfl | rfl | rfl | rfl <;>
              simp [submissionWrite, progressWrite, errorWrite]
          · rcases up with e | urls
            · simp only [h1, h2, if_neg, not_false_iff, List.mem_cons,
                List.not_mem_nil, or_false] at hw
              rcases hw with rfl | rfl | rfl | rfl <;>
                simp [submissionWrite, progressWrite, errorWrite]
            · rcases wm with e | ⟨⟩
              · simp only [h1, h2, if_neg, not_false_iff, List.mem_cons,
                  List.not_mem_nil, or_false] at hw
                rcases hw with rfl | rfl | rfl | rfl | rfl <;>
                  simp [submissionWrite, progressWrite, errorWrite]
              · rcases mu with e | u
                · simp only [h1, h2, if_neg, not_false_iff, List.mem_cons,
                    List.not_mem_nil, or_false] at hw
                  rcases hw with rfl | rfl | rfl | rfl | rfl | rfl <;>
                    simp [submissionWrite, progressWrite, errorWrite]
                · simp only [h1, h2, if_neg, not_false_iff, List.mem_cons,
                    List.not_mem_nil, or_false] at hw
                  rcases hw with rfl | rfl | rfl | rfl | rfl | rfl <;>
                    simp [submissionWrite, progressWrite, errorWrite]

/-- C2 (witness): the submission-time `queued` write is a Job Runner
path write in a non-completed state, and indeed sets neither
`masterUrl` nor `urls`. -/
theorem C2_completed_fields_witness :
    submissionWrite tstamp ∈ runnerWrites cexJob envAllOk tstamp
    ∧ (submissionWrite tstamp).masterUrl = none
    ∧ (submissionWrite tstamp).urls = none :=
  ⟨by decide,
   (C2_completed_fields cexJob envAllOk tstamp (submissionWrite tstamp)
      (by decide)).2 (by decide)⟩

end Hls

namespace Hls

/-- C3: for every probed input with height at most width and minimum
dimension at least 360, the ladder builder returns, in ascending height
order, exactly the 360p rung plus every higher tier whose threshold
height is at most the source height, with the canonical widths
640/854/1280/1920/2880/4320; it always includes the 360p rung and never
includes a rung whose threshold exceeds the source height. -/
theorem C3_ladder_contents (ud : String) (w h : Nat) (hwh : h ≤ w)
    (hmin : 360 ≤ min w h) :
    uploadSubDir ud h = (allRungs ud).filter (fun r => decide (r.height ≤ h))
    ∧ List.Chain' (fun a b => a.height < b.height) (uploadSubDir ud h)
    ∧ (⟨ud ++ "/360p", 360, 640⟩ : Rung) ∈ uploadSubDir ud h
    ∧ ∀ r ∈ uploadSubDir ud h, r.height ≤ h := by
  have h360 : 360 ≤ h := le_trans hmin (min_le_right w h)
  by_cases h480 : 480 ≤ h <;> by_cases h720 : 720 ≤ h <;>
    by_cases h1080 : 1080 ≤ h <;> by_cases h1620 : 1620 ≤ h <;>
    by_cases h2430 : 2430 ≤ h <;>
    (try omega) <;>
    refine ⟨?_, ?_, ?_, ?_⟩ <;>
    simp [uploadSubDir, allRungs, h360, h480, h720, h1080, h1620, h2430]

/-- C3 (witness): the 1920x1080 scenario of spec §8 yields the
360p/480p/720p/1080p ladder. -/
theorem C3_ladder_contents_witness :
    1080 ≤ 1920 ∧ 360 ≤ min 1920 1080
    ∧ (uploadSubDir "o" 1080
        = (allRungs "o").filter (fun r => decide (r.height ≤ 1080))
      ∧ List.Chain' (fun a b => a.height < b.height) (uploadSubDir "o" 1080)
      ∧ (⟨"o" ++ "/360p", 360, 640⟩ : Rung) ∈ uploadSubDir "o" 1080
      ∧ ∀ r ∈ uploadSubDir "o" 1080, r.height ≤ 1080) :=
  ⟨by decide, by decide,
   C3_ladder_contents "o" 1920 1080 (by decide) (by decide)⟩

/-- C4: whatever step of the pipeline fails first, the Job Runner's
`catch` block makes the run's final Redis write an `error`-status write
carrying exactly that step's message.  `processJob` is a total function
into an event list — the model of the fact that the handler's promise
always resolves, so no pipeline error reaches the worker pool as an
uncaught fault. -/
theorem C4_errors_caught (job : JobData) (env : Env) (msg : String)
    (h : pipelineError env = some msg) :
    lastHSet (processJob job env) = some (errorWrite msg)
    ∧ (errorWrite msg).status = some "error"
    ∧ (errorWrite msg).error = some msg :=
  ⟨lastHSet_of_error job env msg h, rfl, rfl⟩

/-- C4 (witness): a failing ffprobe ends the run with its message in
the terminal error write. -/
theorem C4_errors_caught_witness :
    pipelineError envProbeFail = some "boom"
    ∧ lastHSet (processJob cexJob envProbeFail)
        = some (errorWrite "boom") :=
  ⟨by decide, (C4_errors_caught cexJob envProbeFail "boom" (by decide)).1⟩

/-- C5: on every run — success or failure at any step — the `finally`
block attempts exactly the removals of the job's output directory, its
input directory, and the job-scoped `/tmp/<videoId>` root, in that
order; a failing removal is logged and the remaining removals still
run, and the cleanup phase never throws (`processJob` is total for
every combination of removal outcomes). -/
theorem C5_cleanup_unconditional (job : JobData) (env : Env) :
    rmTargets (processJob job env)
      = [job.uploadDir, job.inputDir, "/tmp/" ++ job.videoId]
    ∧ (env.rmUploadOk = false → Event.log job.uploadDir ∈ processJob job env)
    ∧ (env.rmInputOk = false → Event.log job.inputDir ∈ processJob job env)
    ∧ (env.rmTmpOk = false →
        Event.log ("/tmp/" ++ job.videoId) ∈ processJob job env) := by
  refine ⟨?_, ?_, ?_, ?_⟩
  · simp [processJob, rmTargets_try]
  · intro hf
    refine List.mem_append_right _ ?_
    simp [cleanupEvents, hf]
  · intro hf
    refine List.mem_append_right _ ?_
    simp [cleanupEvents, hf]
  · intro hf
    refine List.mem_append_right _ ?_
    simp [cleanupEvents, hf]

/-- C5 (witness): a run in which every removal fails still attempts all
three removals and logs each failure. -/
theorem C5_cleanup_unconditional_witness :
    envProbeFail.rmUploadOk = false
    ∧ rmTargets (processJob cexJob envProbeFail)
        = [cexJob.uploadDir, cexJob.inputDir, "/tmp/" ++ cexJob.videoId]
    ∧ Event.log cexJob.uploadDir ∈ processJob cexJob envProbeFail
    ∧ Event.log cexJob.inputDir ∈ processJob cexJob envProbeFail
    ∧ Event.log ("/tmp/" ++ cexJob.videoId) ∈ processJob cexJob envProbeFail :=
  ⟨rfl, (C5_cleanup_unconditional cexJob envProbeFail).1,
   (C5_cleanup_unconditional cexJob envProbeFail).2.1 rfl,
   (C5_cleanup_unconditional cexJob envProbeFail).2.2.1 rfl,
   (C5_cleanup_unconditional cexJob envProbeFail).2.2.2 rfl⟩

/-- C6: a probed portrait input (height strictly greater than width)
ends the run with the aspect-ratio error message as the terminal status
write, and no rung output directory is ever created. -/
theorem C6_portrait_rejected (job : JobData) (env : Env) (w h : Nat)
    (hp : env.probe = .ok (w, h)) (hwh : w < h) :
    lastHSet (processJob job env) = some (errorWrite aspectMsg)
    ∧ ∀ d, Event.mkdirRec d ∉ processJob job env :=
  aspect_rejection job env w h hp hwh

/-- C6 (witness): the 600x800 portrait scenario of spec §8. -/
theorem C6_portrait_rejected_witness :
    envPortrait.probe = Except.ok (600, 800) ∧ 600 < 800
    ∧ lastHSet (processJob cexJob envPortrait) = some (errorWrite aspectMsg)
    ∧ ∀ d, Event.mkdirRec d ∉ processJob cexJob envPortrait :=
  ⟨rfl, by decide,
   (C6_portrait_rejected cexJob envPortrait 600 800 rfl (by decide)).1,
   (C6_portrait_rejected cexJob envPortrait 600 800 rfl (by decide)).2⟩

/-- C7 (counterexample): it is not the case that every input with
minimum dimension below 360 ends with the resolution-too-low message:
the aspect-ratio check runs first, so a 300x400 portrait input (whose
minimum dimension is 300) ends with the aspect-ratio message instead. -/
theorem C7_lowres_counterexample :
    ¬ (∀ (job : JobData) (env : Env) (w h : Nat),
        env.probe = .ok (w, h) → min w h < 360 →
        lastHSet (processJob job env)
          = some (errorWrite (tooLowMsg w h))) := by
  intro hAll
  have h := hAll cexJob envLowPortrait 300 400 rfl (by decide)
  exact absurd h (by decide)

/-- C7 (amended): every input with minimum dimension below 360 ends in
a terminal `error` write before any rung directory is created; the
message is the resolution-too-low one exactly when the input is
landscape (height at most width) — a portrait low-resolution input gets
the aspect-ratio message instead. -/
theorem C7_lowres_rejected (job : JobData) (env : Env) (w h : Nat)
    (hp : env.probe = .ok (w, h)) (hmin : min w h < 360) :
    (∃ msg, lastHSet (processJob job env) = some (errorWrite msg))
    ∧ (∀ d, Event.mkdirRec d ∉ processJob job env)
    ∧ (h ≤ w →
        lastHSet (processJob job env)
          = some (errorWrite (tooLowMsg w h))) := by
  by_cases hwh : w < h
  · obtain ⟨h1, h2⟩ := aspect_rejection job env w h hp hwh
    exact ⟨⟨aspectMsg, h1⟩, h2, fun hle => absurd hwh (by omega)⟩
  · have hpe : pipelineError env = some (tooLowMsg w h) := by
      simp [pipelineError, hp, hwh]
      omega
    refine ⟨⟨tooLowMsg w h, lastHSet_of_error job env _ hpe⟩, ?_,
      fun _ => lastHSet_of_error job env _ hpe⟩
    intro d
    simp only [processJob, List.mem_append, not_or]
    refine ⟨?_, mkdir_not_mem_cleanup job env d⟩
    have hm : min h w < 360 := by omega
    simp [tryEvents, hp, hwh, hm]

/-- C7 (witness): a 320x240 landscape input ends with the exact
resolution-too-low message. -/
theorem C7_lowres_rejected_witness :
    envLowLandscape.probe = Except.ok (320, 240) ∧ min 320 240 < 360
    ∧ lastHSet (processJob cexJob envLowLandscape)
        = some (errorWrite (tooLowMsg 320 240)) :=
  ⟨rfl, by decide,
   (C7_lowres_rejected cexJob envLowLandscape 320 240 rfl
      (by decide)).2.2 (by decide)⟩

/-- C8: the Master Playlist Generator is modelled as a plain total
function of the rung list — it performs no I/O by construction — and is
deterministic: two calls on equal lists yield byte-identical output. -/
theorem C8_playlist_deterministic (l l2 : List Rung) (h : l = l2) :
    generateMasterPlaylist l = generateMasterPlaylist l2 := by rw [h]

/-- C8 (witness): determinism at the two-rung demo ladder. -/
theorem C8_playlist_deterministic_witness :
    demoLadder = demoLadder
    ∧ generateMasterPlaylist demoLadder = generateMasterPlaylist demoLadder :=
  ⟨rfl, C8_playlist_deterministic demoLadder demoLadder rfl⟩

/-- C9: the generated master playlist has exactly one entry per rung,
in order; the entry at index i carries synthetic bandwidth
(i+1)*250000 — strictly increasing across rungs — the rung's declared
width x height as RESOLUTION, and the sub-manifest path
`<height>p/index.m3u8` on its own line. -/
theorem C9_playlist_entries (l : List Rung) :
    (masterEntries l).length = l.length
    ∧ generateMasterPlaylist l
        = String.intercalate "\n" ("#EXTM3U" :: masterEntries l)
    ∧ (∀ i (hi : i < l.length) (hi2 : i < (masterEntries l).length),
        (masterEntries l).get ⟨i, hi2⟩
          = "#EXT-X-STREAM-INF:BANDWIDTH=" ++ toString (bandwidth i)
            ++ ",RESOLUTION=" ++ toString (l.get ⟨i, hi⟩).width ++ "x"
            ++ toString (l.get ⟨i, hi⟩).height
            ++ "\n" ++ toString (l.get ⟨i, hi⟩).height ++ "p/index.m3u8")
    ∧ (∀ i, bandwidth i = (i + 1) * 250000)
    ∧ (∀ i j, i < j → bandwidth i < bandwidth j) := by
  refine ⟨by simp [masterEntries], rfl, ?_, fun i => rfl, ?_⟩
  · intro i hi hi2
    simp [masterEntries, List.get_eq_getElem, List.getElem_map,
      List.getElem_enum, streamInf]
  · intro i j hij
    simp only [bandwidth]
    omega

/-- C9 (witness): the first entry of the demo ladder's playlist, and
bandwidth growth between the first two rungs. -/
theorem C9_playlist_entries_witness :
    (masterEntries demoLadder).length = demoLadder.length
    ∧ (masterEntries demoLadder).get ⟨0, by decide⟩
        = "#EXT-X-STREAM-INF:BANDWIDTH=" ++ toString (bandwidth 0)
          ++ ",RESOLUTION=" ++ toString (demoLadder.get ⟨0, by decide⟩).width
          ++ "x" ++ toString (demoLadder.get ⟨0, by decide⟩).height
          ++ "\n" ++ toString (demoLadder.get ⟨0, by decide⟩).height
          ++ "p/index.m3u8"
    ∧ bandwidth 0 < bandwidth 1 :=
  ⟨(C9_playlist_entries demoLadder).1,
   (C9_playlist_entries demoLadder).2.2.1 0 (by decide) (by decide),
   (C9_playlist_entries demoLadder).2.2.2.2 0 1 (by decide)⟩

/-- C10: the failure write of the `catch` block carries only `status`
and `error`; applied to any Status Record it leaves `progress`,
`masterUrl`, `urls` and `createdAt` exactly as they were, so after an
error the record still shows the progress of the last milestone
reached. -/
theorem C10_error_write_frame (job : JobData) (env : Env) (msg : String)
    (r : StatusRecord) (h : pipelineError env = some msg) :
    lastHSet (processJob job env) = some (errorWrite msg)
    ∧ applyHSet r (errorWrite msg)
        = { r with status := "error", error := msg } :=
  ⟨lastHSet_of_error job env msg h, rfl⟩

/-- C10 (witness): applying the error write to a record stalled at the
20% milestone keeps its progress at 20. -/
theorem C10_error_write_frame_witness :
    pipelineError envProbeFail = some "boom"
    ∧ applyHSet sampleRecord (errorWrite "boom")
        = { sampleRecord with status := "error", error := "boom" }
    ∧ (applyHSet sampleRecord (errorWrite "boom")).progress = "20" :=
  ⟨by decide,
   (C10_error_write_frame cexJob envProbeFail "boom" sampleRecord
      (by decide)).2,
   by decide⟩

end Hls
